import Mathlib

/-!
Verification development for the Rapids Academy player statistics program
(`Rapids_academy_player_stats.py`).  The reusable core of the program is a
position catalog (`get_position_config`), a per-player tabular record store
(`load_data` / `save_data`), the add-match flow (`add_match_view` with its
widget-bounded inputs and validation), and derived summaries
(`show_stats_summary`, the recent-matches views, match/minute totals).
Each definition below embeds the corresponding Python function; theorems
check the documented properties against these definitions.
-/

namespace RapidsStats

/-- Cell values of the per-player tabular store: CSV cells are either text
(`date`, `opponent`) or integers (minutes and statistic counts). -/
inductive Value where
  | str (s : String)
  | num (n : Nat)
deriving DecidableEq

/-- One row of a player's table: an association list from column name to cell,
looked up by first occurrence (as a dataframe row indexed by column label). -/
abbrev Row := List (String × Value)

/-- A player's tabular data: header (ordered column names) plus rows in
insertion order. -/
structure Table where
  cols : List String
  rows : List Row
deriving DecidableEq

/-- Numeric reading of an optional cell; absent or textual cells contribute 0,
matching pandas numeric aggregation over the modelled integer columns. -/
def valueNat : Option Value → Nat
  | some (Value.num n) => n
  | _ => 0

/-- `get_position_config` (source lines 27-36): the mapping from position name
to the ordered list of statistic names, in the dict's insertion order. -/
def positionConfig : List (String × List String) :=
  [("Goalkeeper", ["saves", "clean_sheets", "goals_conceded"]),
   ("Center Back", ["passes_to_fullback", "passes_into_red_zone", "tackles_won",
      "aerial_duels_won", "turnovers", "ball_recoveries"]),
   ("Fullback", ["red_zone_passes", "passes_behind_line", "defensive_1v1_won",
      "turnovers", "crosses", "assists"]),
   ("Defensive Midfielder/Pivot", ["ball_recoveries", "passes_completed",
      "turnovers", "creating_3_backline", "forward_passes_10plus"]),
   ("Attacking Midfielder", ["redzone_receptions", "passes_behind_line", "shots",
      "shots_on_target", "assists", "goals", "ball_recoveries"]),
   ("Wide Forward", ["receptions_behind_line", "paz_crosses", "assists", "goals",
      "ball_recoveries", "passes_behind_line"]),
   ("Center Forward", ["receptions_behind_line", "assists", "goals",
      "ball_recoveries", "successful_holdup_plays", "forced_errors"])]

/-- A position catalog: ordered mapping from position name to stat names. -/
abbrev Catalog := List (String × List String)

/-- `list(get_position_config().keys())`: the ordered position names. -/
def getPositions (catalog : Catalog) : List String :=
  catalog.map Prod.fst

/-- The error a stat lookup raises for a position absent from the catalog
(`get_position_config()[position]` raises `KeyError` in the source; the spec
names it `UnknownPositionError`). -/
inductive UnknownPositionError where
  | unknownPosition
deriving DecidableEq

/-- `get_position_config()[position]`: dict subscript — returns the stat list
for a known position and raises for an unknown one. -/
def getStats (position : String) : Except UnknownPositionError (List String) :=
  match positionConfig.lookup position with
  | some stats => Except.ok stats
  | none => Except.error UnknownPositionError.unknownPosition

/-- Modelled from the spec: `remove_position(name)` — the source's catalog is a
hard-coded dict with no mutation operation, so the spec's catalog-editing
operation is modelled from its words: deleting the entry (no-op if absent),
leaving stored match records untouched. -/
def removePosition (catalog : Catalog) (name : String) : Catalog :=
  catalog.filter (fun e => e.1 != name)

/-- `player_name.lower().replace(' ', '_')` (source lines 42 and 59):
lower-case the name and replace spaces by underscores, character-wise. -/
def normalize (s : String) : String :=
  String.mk (s.data.map (fun c =>
    let c' := c.toLower
    if c' = ' ' then '_' else c'))

/-- `f"player_data/{player_name.lower().replace(' ', '_')}.csv"`: the storage
key derived from a player name. -/
def filename (playerName : String) : String :=
  "player_data/" ++ normalize playerName ++ ".csv"

/-- The persisted store: CSV files keyed by file name. -/
abbrev Store := String → Option Table

/-- The `default_columns` list built by `load_data` (source lines 46-48):
the shared fields followed by every stat of every catalog position, in
catalog order. -/
def defaultColumns (catalog : Catalog) : List String :=
  ["date", "opponent", "minutes_played"] ++
    catalog.foldl (fun acc p => acc ++ p.2) []

/-- One step of `load_data`'s back-fill loop (source lines 50-52):
`if col not in data.columns: data[col] = 0` — append the column and give it
value 0 in every row. -/
def addCol (t : Table) (c : String) : Table :=
  if c ∈ t.cols then t
  else ⟨t.cols ++ [c], t.rows.map (fun r => r ++ [(c, Value.num 0)])⟩

/-- The back-fill loop of `load_data`: add each missing default column with
value 0. -/
def addMissingColumns (catalog : Catalog) (t : Table) : Table :=
  (defaultColumns catalog).foldl addCol t

/-- `load_data(player_name)` (source lines 39-54): `None` for an empty name or
a missing file; otherwise the stored table with missing default columns added
as 0. -/
def loadData (catalog : Catalog) (store : Store) (playerName : String) :
    Option Table :=
  if playerName = "" then none
  else
    match store (filename playerName) with
    | some t => some (addMissingColumns catalog t)
    | none => none

/-- `save_data(data, player_name)` (source lines 56-61): overwrite the file
derived from the player name with the whole table. -/
def saveData (store : Store) (t : Table) (playerName : String) : Store :=
  fun k => if k = filename playerName then some t else store k

/-- `st.number_input(label, lo, hi, default)`: the widget only yields values
inside `[lo, hi]`; the raw entry is clamped into the range. -/
def numberInput (lo hi v : Nat) : Nat :=
  max lo (min v hi)

/-- `create_stat_inputs(position)` (source lines 63-70) applied to the stat
list of the position: one `st.number_input(_, 0, 200, 0)` per stat, in catalog
order; `raw` is the user's entry per stat name. -/
def createStatInputs (pstats : List String) (raw : String → Nat) :
    List (String × Nat) :=
  pstats.map (fun s => (s, numberInput 0 200 (raw s)))

/-- The `new_match` record built by `add_match_view` (source lines 314-321):
date, opponent, minutes played, plus the position's statistic values. -/
structure NewMatch where
  date : String
  opponent : String
  minutes : Nat
  stats : List (String × Nat)
deriving DecidableEq

/-- The row `add_match_view` appends: shared fields first, then the stats. -/
def rowOfMatch (nm : NewMatch) : Row :=
  ("date", Value.str nm.date) :: ("opponent", Value.str nm.opponent) ::
    ("minutes_played", Value.num nm.minutes) ::
    nm.stats.map (fun p => (p.1, Value.num p.2))

/-- `pd.concat([data, pd.DataFrame([new_match])], ignore_index=True)`:
the columns become the union (existing first, new ones appended) and the new
row goes last. -/
def appendTable (t : Table) (r : Row) : Table :=
  ⟨t.cols ++ (r.map Prod.fst).filter (fun c => !t.cols.contains c),
   t.rows ++ [r]⟩

/-- The validation failures of `add_match_view` (source lines 305-311); the
spec calls both `ValidationError`. -/
inductive ValidationError where
  | emptyOpponent
  | zeroMinutes
deriving DecidableEq

/-- `add_match_view`'s submit branch (source lines 304-331): reject an empty
opponent, then zero minutes, leaving data and store untouched; otherwise
append the new row and save the whole table under the player's key.  Returns
(error, in-memory data, store). -/
def addMatchView (store : Store) (playerName : String) (data : Table)
    (nm : NewMatch) : Option ValidationError × Table × Store :=
  if nm.opponent = "" then (some ValidationError.emptyOpponent, data, store)
  else if nm.minutes = 0 then (some ValidationError.zeroMinutes, data, store)
  else
    let newData := appendTable data (rowOfMatch nm)
    (none, newData, saveData store newData playerName)

/-- The record a submitted add-match form carries: the opponent text entry,
minutes from `st.number_input(_, 0, 120, 0)`, stats from
`create_stat_inputs` (source lines 282-299). -/
def formRecord (pstats : List String) (dateInput opponentInput : String)
    (rawMinutes : Nat) (raw : String → Nat) : NewMatch :=
  { date := dateInput
    opponent := opponentInput
    minutes := numberInput 0 120 rawMinutes
    stats := createStatInputs pstats raw }

/-- The empty collection `player_view` synthesizes when no file exists
(source lines 257-259): shared columns plus the position's stats, no rows. -/
def emptyCollection (pstats : List String) : Table :=
  ⟨["date", "opponent", "minutes_played"] ++ pstats, []⟩

/-- `len(data)`: the number of match records. -/
def totalMatches (t : Table) : Nat :=
  t.rows.length

/-- `data['minutes_played'].sum()`: total minutes across records. -/
def totalMinutes (t : Table) : Nat :=
  (t.rows.map (fun r => valueNat (r.lookup "minutes_played"))).sum

/-- `data[stat].sum()` for one column. -/
def colSum (t : Table) (c : String) : Nat :=
  (t.rows.map (fun r => valueNat (r.lookup c))).sum

/-- `show_stats_summary(data, position)` (source lines 72-96): nothing is
shown for absent or empty data; otherwise the stats of the position split
into available ones (summed) and missing ones (warned about). -/
def showStatsSummary (t : Table) (position : String) :
    Except UnknownPositionError (Option (List (String × Nat) × List String)) :=
  if t.rows.isEmpty then Except.ok none
  else
    match positionConfig.lookup position with
    | none => Except.error UnknownPositionError.unknownPosition
    | some pstats =>
        Except.ok (some
          ((pstats.filter (fun s => t.cols.contains s)).map
              (fun s => (s, colSum t s)),
           pstats.filter (fun s => !t.cols.contains s)))

/-- The `date` cell of a row, as the string pandas sorts by. -/
def rowDate (r : Row) : String :=
  match r.lookup "date" with
  | some (Value.str s) => s
  | _ => ""

/-- Rows paired with their positional index (insertion order). -/
def indexedRows (t : Table) : List (Nat × Row) :=
  t.rows.enum

/-- The order `sort_values('date', ascending=False)` produces on indexed
rows: pandas' `nargsort` reverses the values together with their indices,
argsorts ascending by date, and reverses the resulting indexer, so with a
stable underlying sort the two reversals cancel on every tie group — the
rows come out descending by date with equal dates kept in original insertion
order, earliest-inserted first.  `dateIdxDescLe p q` says row `p` comes no
later than row `q` in that output. -/
def dateIdxDescLe (p q : Nat × Row) : Prop :=
  rowDate q.2 < rowDate p.2 ∨ (rowDate p.2 = rowDate q.2 ∧ p.1 ≤ q.1)

/-- String comparison decided through the character-list order, so that
sorting concrete tables evaluates by reduction. -/
instance (priority := 2000) decidableStrLt (s t : String) : Decidable (s < t) :=
  decidable_of_iff (s.toList < t.toList) String.lt_iff_toList_lt.symm

instance : DecidableRel dateIdxDescLe := fun p q =>
  inferInstanceAs
    (Decidable (rowDate q.2 < rowDate p.2 ∨ (rowDate p.2 = rowDate q.2 ∧ p.1 ≤ q.1)))

instance : IsTotal (Nat × Row) dateIdxDescLe where
  total p q := by
    rcases lt_trichotomy (rowDate p.2) (rowDate q.2) with h | h | h
    · exact Or.inr (Or.inl h)
    · rcases Nat.le_total p.1 q.1 with hi | hi
      · exact Or.inl (Or.inr ⟨h, hi⟩)
      · exact Or.inr (Or.inr ⟨h.symm, hi⟩)
    · exact Or.inl (Or.inl h)

instance : IsTrans (Nat × Row) dateIdxDescLe where
  trans p q r h1 h2 := by
    rcases h1 with h1 | ⟨he1, hi1⟩
    · rcases h2 with h2 | ⟨he2, hi2⟩
      · exact Or.inl (lt_trans h2 h1)
      · exact Or.inl (he2 ▸ h1)
    · rcases h2 with h2 | ⟨he2, hi2⟩
      · exact Or.inl (lt_of_lt_of_eq h2 he1.symm)
      · exact Or.inr ⟨he1.trans he2, le_trans hi1 hi2⟩

/-- `data.sort_values('date', ascending=False)` (source lines 208, 229, 349):
the `dateIdxDescLe`-sorted permutation of the indexed rows.  Since the
indices are distinct that order is total and antisymmetric, so this sorted
permutation is unique and any sorting algorithm computes it; a structural
insertion sort is used so that concrete tables evaluate. -/
def sortValuesDateDesc (t : Table) : List (Nat × Row) :=
  (indexedRows t).insertionSort dateIdxDescLe

/-- `data.sort_values('date', ascending=False).head(n)`: the recent-matches
view (`n` is 5 on lines 208 and 349, 3 on line 229). -/
def recent (t : Table) (n : Nat) : List (Nat × Row) :=
  (sortValuesDateDesc t).take n

/-- Rows are well-formed for a table when each row binds exactly the header's
columns, in order — what reading a CSV file guarantees. -/
def WellFormed (t : Table) : Prop :=
  ∀ r ∈ t.rows, r.map Prod.fst = t.cols

/-- A concrete four-match table with a three-way date tie (rows 0, 2 and 3
share the date `2024-03-01`, row 1 is earlier), used to exhibit the tie-break
order of the recent-matches view. -/
def tieTable : Table :=
  ⟨["date", "opponent", "minutes_played"],
   [[("date", Value.str "2024-03-01"), ("opponent", Value.str "A"),
     ("minutes_played", Value.num 90)],
    [("date", Value.str "2024-02-01"), ("opponent", Value.str "B"),
     ("minutes_played", Value.num 80)],
    [("date", Value.str "2024-03-01"), ("opponent", Value.str "C"),
     ("minutes_played", Value.num 70)],
    [("date", Value.str "2024-03-01"), ("opponent", Value.str "D"),
     ("minutes_played", Value.num 60)]]⟩

/-! ### Helper lemmas -/

theorem lookup_of_mem_nodup {β : Type} :
    ∀ {l : List (String × β)} {k : String} {v : β},
    (l.map Prod.fst).Nodup → (k, v) ∈ l → l.lookup k = some v := by
  intro l
  induction l with
  | nil =>
    intro k v _ hm
    simp at hm
  | cons p tl ih =>
    intro k v hnd hm
    rcases List.mem_cons.mp hm with h | h
    · cases p with
      | mk a b =>
        injection h with h1 h2
        subst h1; subst h2
        simp
    · have hk : k ≠ p.1 := by
        intro he
        have hmem : k ∈ tl.map Prod.fst := by
          exact List.mem_map_of_mem Prod.fst h
        rw [List.map_cons] at hnd
        exact (List.nodup_cons.mp hnd).1 (he ▸ hmem)
      have htl := ih (by rw [List.map_cons] at hnd; exact (List.nodup_cons.mp hnd).2) h
      rw [List.lookup_cons]
      have : (k == p.1) = false := by
        simp [hk]
      rw [this]
      exact htl

theorem lookup_append_left {β : Type} {l l' : List (String × β)} {k : String}
    {v : β} (h : l.lookup k = some v) : (l ++ l').lookup k = some v := by
  rw [List.lookup_append, h]
  rfl

/-! ### C6: stat lookup for known and unknown positions -/

/-- C6: `get_stats` raises `UnknownPositionError` for a position absent from
the catalog (never a silent empty result), and returns the position's ordered
stat-name sequence for a present one. -/
theorem getStats_catalog_spec (p : String) :
    (p ∉ getPositions positionConfig →
      getStats p = Except.error UnknownPositionError.unknownPosition) ∧
    (∀ stats, (p, stats) ∈ positionConfig → getStats p = Except.ok stats) := by
  constructor
  · intro hp
    have hnone : positionConfig.lookup p = none := by
      rw [List.lookup_eq_none_iff]
      intro q hq
      simp only [bne_iff_ne, ne_eq]
      intro he
      exact hp (he ▸ List.mem_map_of_mem Prod.fst hq)
    simp [getStats, hnone]
  · intro stats hmem
    have hnd : (positionConfig.map Prod.fst).Nodup := by decide
    have := lookup_of_mem_nodup hnd hmem
    simp [getStats, this]

theorem getStats_catalog_spec_witness :
    ("Striker" ∉ getPositions positionConfig ∧
      getStats "Striker" = Except.error UnknownPositionError.unknownPosition) ∧
    (("Goalkeeper", ["saves", "clean_sheets", "goals_conceded"]) ∈ positionConfig ∧
      getStats "Goalkeeper" = Except.ok ["saves", "clean_sheets", "goals_conceded"]) :=
  ⟨⟨by decide, (getStats_catalog_spec "Striker").1 (by decide)⟩,
   ⟨by decide,
    (getStats_catalog_spec "Goalkeeper").2 ["saves", "clean_sheets", "goals_conceded"]
      (by decide)⟩⟩

/-! ### C2: invalid records are rejected and change nothing -/

/-- C2: submitting a record with empty opponent or zero minutes fails with a
`ValidationError` and leaves the in-memory data, its match count, and the
persisted store unchanged. -/
theorem addMatchView_invalid_rejected (store : Store) (playerName : String)
    (data : Table) (nm : NewMatch)
    (h : nm.opponent = "" ∨ nm.minutes = 0) :
    ∃ e : ValidationError,
      addMatchView store playerName data nm = (some e, data, store) ∧
      totalMatches (addMatchView store playerName data nm).2.1 = totalMatches data ∧
      ∀ catalog, loadData catalog (addMatchView store playerName data nm).2.2 playerName
        = loadData catalog store playerName := by
  by_cases hop : nm.opponent = ""
  · exact ⟨ValidationError.emptyOpponent, by simp [addMatchView, hop],
      by simp [addMatchView, hop], by intro c; simp [addMatchView, hop]⟩
  · have hmin : nm.minutes = 0 := h.resolve_left hop
    exact ⟨ValidationError.zeroMinutes, by simp [addMatchView, hop, hmin],
      by simp [addMatchView, hop, hmin], by intro c; simp [addMatchView, hop, hmin]⟩

theorem addMatchView_invalid_rejected_witness :
    ((NewMatch.mk "2024-03-01" "" 90 []).opponent = "" ∨
      (NewMatch.mk "2024-03-01" "" 90 []).minutes = 0) ∧
    ∃ e : ValidationError,
      addMatchView (fun _ => none) "Jane Doe" (emptyCollection ["saves"])
          (NewMatch.mk "2024-03-01" "" 90 []) =
        (some e, emptyCollection ["saves"], fun _ => none) ∧
      totalMatches (addMatchView (fun _ => none) "Jane Doe"
          (emptyCollection ["saves"]) (NewMatch.mk "2024-03-01" "" 90 [])).2.1 =
        totalMatches (emptyCollection ["saves"]) ∧
      ∀ catalog, loadData catalog (addMatchView (fun _ => none) "Jane Doe"
          (emptyCollection ["saves"]) (NewMatch.mk "2024-03-01" "" 90 [])).2.2 "Jane Doe"
        = loadData catalog (fun _ => none) "Jane Doe" :=
  ⟨Or.inl rfl,
   addMatchView_invalid_rejected (fun _ => none) "Jane Doe"
     (emptyCollection ["saves"]) (NewMatch.mk "2024-03-01" "" 90 []) (Or.inl rfl)⟩

/-! ### C8: the storage key is a function of the normalized player name -/

/-- C8: two player names equal after normalization (lower-casing, spaces to
underscores) resolve to the same storage key, load the same collection, and
save to the same file. -/
theorem storageKey_normalized (store : Store) (t : Table) (n1 n2 : String)
    (h : normalize n1 = normalize n2) (h1 : n1 ≠ "") (h2 : n2 ≠ "") :
    filename n1 = filename n2 ∧
    (∀ catalog, loadData catalog store n1 = loadData catalog store n2) ∧
    saveData store t n1 = saveData store t n2 := by
  have hf : filename n1 = filename n2 := by
    unfold filename
    rw [h]
  refine ⟨hf, ?_, ?_⟩
  · intro catalog
    simp [loadData, h1, h2, hf]
  · funext k
    simp [saveData, hf]

theorem storageKey_normalized_witness :
    (normalize "Jane Doe" = normalize "JANE doe" ∧ "Jane Doe" ≠ "" ∧ "JANE doe" ≠ "") ∧
    (filename "Jane Doe" = filename "JANE doe" ∧
     (∀ catalog, loadData catalog (fun _ => none) "Jane Doe"
        = loadData catalog (fun _ => none) "JANE doe") ∧
     saveData (fun _ => none) (emptyCollection []) "Jane Doe"
        = saveData (fun _ => none) (emptyCollection []) "JANE doe") :=
  ⟨⟨by decide, by decide, by decide⟩,
   storageKey_normalized (fun _ => none) (emptyCollection []) "Jane Doe" "JANE doe"
     (by decide) (by decide) (by decide)⟩

/-! ### C1: never-present stats are reported as missing, not as 0 -/

/-- C1 counterexample: for the empty collection (reachable: a player with no
prior file gets a synthesized empty table), `show_stats_summary` returns
before computing anything (source line 74), so a stat present in no record —
here `saves`, with no rows at all and no column — is not reported in a
missing set, contradicting the claim's "for every collection". -/
theorem statTotals_missing_claim_cex :
    ¬ ∃ available missing,
        showStatsSummary (Table.mk [] []) "Goalkeeper" =
          Except.ok (some (available, missing)) ∧
        "saves" ∈ missing := by
  rintro ⟨available, missing, h, -⟩
  simp [showStatsSummary] at h

/-- C1 amended: for every collection with at least one record and every
catalog position, a statistic of that position present in no record (no such
column) is reported in the separately-returned missing set and not among the
summed totals (in particular not with value 0). -/
theorem statTotals_missing_amended (t : Table) (position : String)
    (pstats : List String) (s : String)
    (hpos : (position, pstats) ∈ positionConfig)
    (hs : s ∈ pstats) (hcol : s ∉ t.cols) (hne : t.rows ≠ []) :
    ∃ available missing,
      showStatsSummary t position = Except.ok (some (available, missing)) ∧
      s ∈ missing ∧ ∀ v, (s, v) ∉ available := by
  have hnd : (positionConfig.map Prod.fst).Nodup := by decide
  have hlk := lookup_of_mem_nodup hnd hpos
  have hempty : t.rows.isEmpty = false := by
    simpa [List.isEmpty_iff] using hne
  refine ⟨(pstats.filter (fun x => t.cols.contains x)).map (fun x => (x, colSum t x)),
     pstats.filter (fun x => !t.cols.contains x), ?_, ?_, ?_⟩
  · simp [showStatsSummary, hempty, hlk]
  · rw [List.mem_filter]
    refine ⟨hs, ?_⟩
    simp [hcol]
  · intro v hv
    rw [List.mem_map] at hv
    obtain ⟨x, hxmem, hxeq⟩ := hv
    have hx1 : x = s := by
      have := congrArg Prod.fst hxeq
      simpa using this
    subst hx1
    have := (List.mem_filter.mp hxmem).2
    simp [hcol] at this

theorem statTotals_missing_amended_witness :
    (("Goalkeeper", ["saves", "clean_sheets", "goals_conceded"]) ∈ positionConfig ∧
     "saves" ∈ ["saves", "clean_sheets", "goals_conceded"] ∧
     "saves" ∉ (Table.mk ["date", "opponent", "minutes_played"]
        [[("date", Value.str "2024-03-01"), ("opponent", Value.str "Rivals FC"),
          ("minutes_played", Value.num 90)]]).cols ∧
     (Table.mk ["date", "opponent", "minutes_played"]
        [[("date", Value.str "2024-03-01"), ("opponent", Value.str "Rivals FC"),
          ("minutes_played", Value.num 90)]]).rows ≠ []) ∧
    ∃ available missing,
      showStatsSummary (Table.mk ["date", "opponent", "minutes_played"]
          [[("date", Value.str "2024-03-01"), ("opponent", Value.str "Rivals FC"),
            ("minutes_played", Value.num 90)]]) "Goalkeeper" =
        Except.ok (some (available, missing)) ∧
      "saves" ∈ missing ∧ ∀ v, ("saves", v) ∉ available :=
  ⟨⟨by decide, by decide, by decide, by decide⟩,
   statTotals_missing_amended
     (Table.mk ["date", "opponent", "minutes_played"]
        [[("date", Value.str "2024-03-01"), ("opponent", Value.str "Rivals FC"),
          ("minutes_played", Value.num 90)]])
     "Goalkeeper" ["saves", "clean_sheets", "goals_conceded"] "saves"
     (by decide) (by decide) (by decide) (by decide)⟩

/-! ### The column back-fill loop of `load_data` -/

theorem lookup_eq_none_of_not_mem_keys {β : Type} {r : List (String × β)}
    {k : String} (h : k ∉ r.map Prod.fst) : r.lookup k = none := by
  rw [List.lookup_eq_none_iff]
  intro p hp
  simp only [bne_iff_ne, ne_eq]
  intro he
  exact h (he ▸ List.mem_map_of_mem Prod.fst hp)

/-- Each pass of the back-fill loop only appends cells, so all the loop does
to the rows is append one common suffix to every row. -/
theorem addCol_foldl_rows_eq :
    ∀ (l : List String) (t : Table),
    ∃ suf : Row, (l.foldl addCol t).rows = t.rows.map (fun r => r ++ suf) := by
  intro l
  induction l with
  | nil =>
    intro t
    refine ⟨[], ?_⟩
    simp
  | cons c l ih =>
    intro t
    rw [List.foldl_cons]
    obtain ⟨suf, hsuf⟩ := ih (addCol t c)
    by_cases hc : c ∈ t.cols
    · refine ⟨suf, ?_⟩
      rw [hsuf, addCol, if_pos hc]
    · refine ⟨(c, Value.num 0) :: suf, ?_⟩
      rw [hsuf, addCol, if_neg hc]
      simp [List.map_map, Function.comp]

theorem addCol_foldl_mem_cols :
    ∀ (l : List String) (t : Table) (c : String),
    c ∈ l ∨ c ∈ t.cols → c ∈ (l.foldl addCol t).cols := by
  intro l
  induction l with
  | nil =>
    intro t c h
    simpa using h.resolve_left (by simp)
  | cons c' l ih =>
    intro t c h
    rw [List.foldl_cons]
    apply ih
    rcases h with h | h
    · rcases List.mem_cons.mp h with rfl | h
      · right
        unfold addCol
        by_cases hc : c ∈ t.cols
        · rw [if_pos hc]; exact hc
        · rw [if_neg hc]; simp
      · exact Or.inl h
    · right
      unfold addCol
      by_cases hc : c' ∈ t.cols
      · rw [if_pos hc]; exact h
      · rw [if_neg hc]; simp [h]

theorem addCol_wellFormed (t : Table) (c : String) (h : WellFormed t) :
    WellFormed (addCol t c) := by
  unfold addCol
  by_cases hc : c ∈ t.cols
  · rw [if_pos hc]; exact h
  · rw [if_neg hc]
    intro r hr
    simp only [List.mem_map] at hr
    obtain ⟨r0, hr0, rfl⟩ := hr
    simp [h r0 hr0]

/-- A cell bound in every row keeps its value through the back-fill loop. -/
theorem addCol_foldl_lookup_preserved
    (l : List String) (t : Table) (k : String) (v : Value)
    (h : ∀ r ∈ t.rows, r.lookup k = some v) :
    ∀ r ∈ (l.foldl addCol t).rows, r.lookup k = some v := by
  obtain ⟨suf, hsuf⟩ := addCol_foldl_rows_eq l t
  rw [hsuf]
  intro r hr
  simp only [List.mem_map] at hr
  obtain ⟨r0, hr0, rfl⟩ := hr
  exact lookup_append_left (h r0 hr0)

/-- A column the loop adds is 0 in every row afterwards. -/
theorem addCol_foldl_lookup_zero :
    ∀ (l : List String) (t : Table) (c : String),
    WellFormed t → c ∉ t.cols → c ∈ l →
    ∀ r ∈ (l.foldl addCol t).rows, r.lookup c = some (Value.num 0) := by
  intro l
  induction l with
  | nil =>
    intro t c _ _ h
    simp at h
  | cons c' l ih =>
    intro t c hwf hc hl
    rw [List.foldl_cons]
    by_cases hcc : c = c'
    · subst hcc
      have hstep : addCol t c = ⟨t.cols ++ [c], t.rows.map (fun r => r ++ [(c, Value.num 0)])⟩ := by
        rw [addCol, if_neg hc]
      rw [hstep]
      apply addCol_foldl_lookup_preserved
      intro r hr
      simp only [List.mem_map] at hr
      obtain ⟨r0, hr0, rfl⟩ := hr
      have hnone : r0.lookup c = none := by
        apply lookup_eq_none_of_not_mem_keys
        rw [hwf r0 hr0]
        exact hc
      rw [List.lookup_append, hnone]
      simp
    · have hl' : c ∈ l := by
        rcases List.mem_cons.mp hl with h | h
        · exact absurd h hcc
        · exact h
      apply ih (addCol t c') c (addCol_wellFormed t c' hwf) ?_ hl'
      unfold addCol
      by_cases hc' : c' ∈ t.cols
      · rw [if_pos hc']; exact hc
      · rw [if_neg hc']
        simp only [List.mem_append, List.mem_singleton]
        rintro (h | h)
        · exact hc h
        · exact hcc h

theorem loadData_of_store (catalog : Catalog) (store : Store) (name : String)
    (t : Table) (h1 : name ≠ "") (h2 : store (filename name) = some t) :
    loadData catalog store name = some (addMissingColumns catalog t) := by
  simp [loadData, h1, h2]

theorem loadData_after_save (catalog : Catalog) (store : Store) (t : Table)
    (name : String) (h1 : name ≠ "") :
    loadData catalog (saveData store t name) name =
      some (addMissingColumns catalog t) := by
  simp [loadData, saveData, h1]

/-! ### C9: `load_data` back-fills every catalog stat column with 0 -/

/-- C9: loading a stored table yields a table with a column for every stat of
every catalog position, and any such column absent from the stored file holds
0 in every row. -/
theorem loadData_backfills_catalog_stats (store : Store) (name : String)
    (t : Table) (h1 : name ≠ "") (h2 : store (filename name) = some t)
    (hwf : WellFormed t) :
    ∃ t', loadData positionConfig store name = some t' ∧
      ∀ pos pstats, (pos, pstats) ∈ positionConfig → ∀ s ∈ pstats,
        s ∈ t'.cols ∧
        (s ∉ t.cols → ∀ r ∈ t'.rows, r.lookup s = some (Value.num 0)) := by
  refine ⟨addMissingColumns positionConfig t, loadData_of_store _ _ _ _ h1 h2, ?_⟩
  intro pos pstats hmem s hs
  have hdef : ∀ p ∈ positionConfig, ∀ x ∈ p.2, x ∈ defaultColumns positionConfig := by
    decide
  have hsdef : s ∈ defaultColumns positionConfig := hdef (pos, pstats) hmem s hs
  constructor
  · exact addCol_foldl_mem_cols _ t s (Or.inl hsdef)
  · intro hcol
    exact addCol_foldl_lookup_zero _ t s hwf hcol hsdef

theorem loadData_backfills_catalog_stats_witness :
    (("Jane Doe" : String) ≠ "" ∧
     (fun k => if k = "player_data/jane_doe.csv"
        then some (Table.mk ["date", "opponent", "minutes_played"]
          [[("date", Value.str "2024-03-01"), ("opponent", Value.str "Rivals FC"),
            ("minutes_played", Value.num 90)]])
        else none : Store) (filename "Jane Doe") =
       some (Table.mk ["date", "opponent", "minutes_played"]
          [[("date", Value.str "2024-03-01"), ("opponent", Value.str "Rivals FC"),
            ("minutes_played", Value.num 90)]]) ∧
     WellFormed (Table.mk ["date", "opponent", "minutes_played"]
          [[("date", Value.str "2024-03-01"), ("opponent", Value.str "Rivals FC"),
            ("minutes_played", Value.num 90)]])) ∧
    ∃ t', loadData positionConfig
        (fun k => if k = "player_data/jane_doe.csv"
          then some (Table.mk ["date", "opponent", "minutes_played"]
            [[("date", Value.str "2024-03-01"), ("opponent", Value.str "Rivals FC"),
              ("minutes_played", Value.num 90)]])
          else none) "Jane Doe" = some t' ∧
      ∀ pos pstats, (pos, pstats) ∈ positionConfig → ∀ s ∈ pstats,
        s ∈ t'.cols ∧
        (s ∉ (Table.mk ["date", "opponent", "minutes_played"]
            [[("date", Value.str "2024-03-01"), ("opponent", Value.str "Rivals FC"),
              ("minutes_played", Value.num 90)]]).cols →
          ∀ r ∈ t'.rows, r.lookup s = some (Value.num 0)) :=
  ⟨⟨by decide, by decide, by unfold WellFormed; decide⟩,
   loadData_backfills_catalog_stats _ "Jane Doe" _ (by decide) (by decide)
     (by unfold WellFormed; decide)⟩

/-! ### C7: removing a position hides it from the catalog, records survive -/

/-- C7: after `remove_position(name)` the position list no longer contains the
name, while every stored record stays readable with all its stored cell values
unchanged (the back-fill loop only appends cells, never rewrites one). -/
theorem removePosition_spec (catalog : Catalog) (pos : String) (store : Store)
    (playerName : String) (t : Table)
    (_hpos : pos ∈ getPositions catalog)
    (h1 : playerName ≠ "") (h2 : store (filename playerName) = some t) :
    pos ∉ getPositions (removePosition catalog pos) ∧
    ∃ t', loadData (removePosition catalog pos) store playerName = some t' ∧
      t'.rows.length = t.rows.length ∧
      ∀ (i : Nat) (hi : i < t.rows.length) (c : String) (v : Value),
        (t.rows.get ⟨i, hi⟩).lookup c = some v →
        ∃ hi' : i < t'.rows.length, (t'.rows.get ⟨i, hi'⟩).lookup c = some v := by
  constructor
  · intro h
    simp only [getPositions, removePosition, List.mem_map, List.mem_filter] at h
    obtain ⟨e, ⟨-, hne⟩, heq⟩ := h
    rw [heq] at hne
    simp at hne
  · refine ⟨addMissingColumns (removePosition catalog pos) t,
      loadData_of_store _ _ _ _ h1 h2, ?_⟩
    obtain ⟨suf, hsuf⟩ := addCol_foldl_rows_eq (defaultColumns (removePosition catalog pos)) t
    have hrows : (addMissingColumns (removePosition catalog pos) t).rows =
        t.rows.map (fun r => r ++ suf) := hsuf
    constructor
    · rw [hrows, List.length_map]
    · intro i hi c v hv
      have hi' : i < (addMissingColumns (removePosition catalog pos) t).rows.length := by
        rw [hrows, List.length_map]
        exact hi
      refine ⟨hi', ?_⟩
      have hget : (addMissingColumns (removePosition catalog pos) t).rows.get ⟨i, hi'⟩ =
          t.rows.get ⟨i, hi⟩ ++ suf := by
        simp [hrows]
      rw [hget]
      exact lookup_append_left hv

theorem removePosition_spec_witness :
    ("Goalkeeper" ∈ getPositions positionConfig ∧ ("Jane Doe" : String) ≠ "" ∧
     (fun k => if k = "player_data/jane_doe.csv"
        then some (Table.mk ["date", "opponent", "saves"]
          [[("date", Value.str "2024-03-01"), ("opponent", Value.str "Rivals FC"),
            ("saves", Value.num 4)]])
        else none : Store) (filename "Jane Doe") =
       some (Table.mk ["date", "opponent", "saves"]
          [[("date", Value.str "2024-03-01"), ("opponent", Value.str "Rivals FC"),
            ("saves", Value.num 4)]])) ∧
    ("Goalkeeper" ∉ getPositions (removePosition positionConfig "Goalkeeper") ∧
     ∃ t', loadData (removePosition positionConfig "Goalkeeper")
        (fun k => if k = "player_data/jane_doe.csv"
          then some (Table.mk ["date", "opponent", "saves"]
            [[("date", Value.str "2024-03-01"), ("opponent", Value.str "Rivals FC"),
              ("saves", Value.num 4)]])
          else none) "Jane Doe" = some t' ∧
      t'.rows.length = (Table.mk ["date", "opponent", "saves"]
          [[("date", Value.str "2024-03-01"), ("opponent", Value.str "Rivals FC"),
            ("saves", Value.num 4)]]).rows.length ∧
      ∀ (i : Nat) (hi : i < (Table.mk ["date", "opponent", "saves"]
          [[("date", Value.str "2024-03-01"), ("opponent", Value.str "Rivals FC"),
            ("saves", Value.num 4)]]).rows.length) (c : String) (v : Value),
        ((Table.mk ["date", "opponent", "saves"]
          [[("date", Value.str "2024-03-01"), ("opponent", Value.str "Rivals FC"),
            ("saves", Value.num 4)]]).rows.get ⟨i, hi⟩).lookup c = some v →
        ∃ hi' : i < t'.rows.length, (t'.rows.get ⟨i, hi'⟩).lookup c = some v) :=
  ⟨⟨by decide, by decide, by decide⟩,
   removePosition_spec positionConfig "Goalkeeper" _ "Jane Doe" _
     (by decide) (by decide) (by decide)⟩

/-! ### Lookups on a freshly appended row -/

theorem lookup_cons_ne {β : Type} {k a : String} {b : β} {es : List (String × β)}
    (h : a ≠ k) : ((k, b) :: es).lookup a = es.lookup a := by
  rw [List.lookup_cons]
  have hb : (a == k) = false := by simp [h]
  rw [hb]

theorem rowOfMatch_lookup_date (nm : NewMatch) :
    (rowOfMatch nm).lookup "date" = some (Value.str nm.date) := by
  simp [rowOfMatch]

theorem rowOfMatch_lookup_opponent (nm : NewMatch) :
    (rowOfMatch nm).lookup "opponent" = some (Value.str nm.opponent) := by
  rw [rowOfMatch, lookup_cons_ne (by decide)]
  simp

theorem rowOfMatch_lookup_minutes (nm : NewMatch) :
    (rowOfMatch nm).lookup "minutes_played" = some (Value.num nm.minutes) := by
  rw [rowOfMatch, lookup_cons_ne (by decide), lookup_cons_ne (by decide)]
  simp

theorem rowOfMatch_lookup_stat (nm : NewMatch) (s : String) (v : Nat)
    (hnd : (nm.stats.map Prod.fst).Nodup)
    (hs : s ∉ (["date", "opponent", "minutes_played"] : List String))
    (hmem : (s, v) ∈ nm.stats) :
    (rowOfMatch nm).lookup s = some (Value.num v) := by
  have h1 : s ≠ "date" := by intro h; exact hs (by rw [h]; simp)
  have h2 : s ≠ "opponent" := by intro h; exact hs (by rw [h]; simp)
  have h3 : s ≠ "minutes_played" := by intro h; exact hs (by rw [h]; simp)
  rw [rowOfMatch, lookup_cons_ne h1, lookup_cons_ne h2, lookup_cons_ne h3]
  apply lookup_of_mem_nodup
  · have : (nm.stats.map (fun p => (p.1, Value.num p.2))).map Prod.fst =
        nm.stats.map Prod.fst := by
      simp [List.map_map, Function.comp]
    rw [this]
    exact hnd
  · exact List.mem_map.mpr ⟨(s, v), hmem, rfl⟩

/-! ### C3: append-then-load round trip -/

/-- C3: a valid record appended through the add-match flow and then loaded
back for the same player is the last record of the loaded collection,
field for field. -/
theorem append_then_load_roundtrip (store : Store) (name : String)
    (data : Table) (nm : NewMatch)
    (hop : nm.opponent ≠ "") (hmin : nm.minutes ≠ 0) (hname : name ≠ "")
    (hnd : (nm.stats.map Prod.fst).Nodup)
    (hbase : ∀ s ∈ nm.stats.map Prod.fst,
      s ∉ (["date", "opponent", "minutes_played"] : List String)) :
    (addMatchView store name data nm).1 = none ∧
    ∃ t' lastRow,
      loadData positionConfig (addMatchView store name data nm).2.2 name = some t' ∧
      t'.rows.getLast? = some lastRow ∧
      lastRow.lookup "date" = some (Value.str nm.date) ∧
      lastRow.lookup "opponent" = some (Value.str nm.opponent) ∧
      lastRow.lookup "minutes_played" = some (Value.num nm.minutes) ∧
      ∀ s v, (s, v) ∈ nm.stats → lastRow.lookup s = some (Value.num v) := by
  have hview : addMatchView store name data nm =
      (none, appendTable data (rowOfMatch nm),
       saveData store (appendTable data (rowOfMatch nm)) name) := by
    simp [addMatchView, hop, hmin]
  obtain ⟨suf, hsuf⟩ :=
    addCol_foldl_rows_eq (defaultColumns positionConfig)
      (appendTable data (rowOfMatch nm))
  refine ⟨by rw [hview],
    addMissingColumns positionConfig (appendTable data (rowOfMatch nm)),
    rowOfMatch nm ++ suf, ?_, ?_, ?_, ?_, ?_, ?_⟩
  · rw [hview]
    exact loadData_after_save _ _ _ _ hname
  · have : (addMissingColumns positionConfig (appendTable data (rowOfMatch nm))).rows =
        data.rows.map (fun r => r ++ suf) ++ [rowOfMatch nm ++ suf] := by
      rw [addMissingColumns, hsuf]
      simp [appendTable]
    rw [this]
    exact List.getLast?_concat _
  · exact lookup_append_left (rowOfMatch_lookup_date nm)
  · exact lookup_append_left (rowOfMatch_lookup_opponent nm)
  · exact lookup_append_left (rowOfMatch_lookup_minutes nm)
  · intro s v hmem
    have hsb := hbase s (List.mem_map_of_mem Prod.fst hmem)
    exact lookup_append_left (rowOfMatch_lookup_stat nm s v hnd hsb hmem)

theorem append_then_load_roundtrip_witness :
    ((NewMatch.mk "2024-03-01" "Rivals FC" 90
        [("saves", 4), ("clean_sheets", 1), ("goals_conceded", 0)]).opponent ≠ "" ∧
     (NewMatch.mk "2024-03-01" "Rivals FC" 90
        [("saves", 4), ("clean_sheets", 1), ("goals_conceded", 0)]).minutes ≠ 0 ∧
     ("Jane Doe" : String) ≠ "") ∧
    ((addMatchView (fun _ => none) "Jane Doe"
        (emptyCollection ["saves", "clean_sheets", "goals_conceded"])
        (NewMatch.mk "2024-03-01" "Rivals FC" 90
          [("saves", 4), ("clean_sheets", 1), ("goals_conceded", 0)])).1 = none ∧
     ∃ t' lastRow,
      loadData positionConfig (addMatchView (fun _ => none) "Jane Doe"
          (emptyCollection ["saves", "clean_sheets", "goals_conceded"])
          (NewMatch.mk "2024-03-01" "Rivals FC" 90
            [("saves", 4), ("clean_sheets", 1), ("goals_conceded", 0)])).2.2 "Jane Doe"
        = some t' ∧
      t'.rows.getLast? = some lastRow ∧
      lastRow.lookup "date" = some (Value.str "2024-03-01") ∧
      lastRow.lookup "opponent" = some (Value.str "Rivals FC") ∧
      lastRow.lookup "minutes_played" = some (Value.num 90) ∧
      ∀ s v, (s, v) ∈ [(("saves" : String), 4), ("clean_sheets", 1), ("goals_conceded", 0)] →
        lastRow.lookup s = some (Value.num v)) :=
  ⟨⟨by decide, by decide, by decide⟩,
   append_then_load_roundtrip (fun _ => none) "Jane Doe"
     (emptyCollection ["saves", "clean_sheets", "goals_conceded"])
     (NewMatch.mk "2024-03-01" "Rivals FC" 90
       [("saves", 4), ("clean_sheets", 1), ("goals_conceded", 0)])
     (by decide) (by decide) (by decide) (by decide) (by decide)⟩

/-! ### C5: appending a valid record to the empty collection -/

/-- C5: appending a valid record to the synthesized empty collection yields,
after loading it back, exactly one match whose minute total is the record's
minutes played. -/
theorem append_to_empty_totals (store : Store) (name : String)
    (pstats : List String) (nm : NewMatch)
    (hop : nm.opponent ≠ "") (hmin : nm.minutes ≠ 0) (hname : name ≠ "") :
    (addMatchView store name (emptyCollection pstats) nm).1 = none ∧
    ∃ t', loadData positionConfig
        (addMatchView store name (emptyCollection pstats) nm).2.2 name = some t' ∧
      totalMatches t' = 1 ∧ totalMinutes t' = nm.minutes := by
  have hview : addMatchView store name (emptyCollection pstats) nm =
      (none, appendTable (emptyCollection pstats) (rowOfMatch nm),
       saveData store (appendTable (emptyCollection pstats) (rowOfMatch nm)) name) := by
    simp [addMatchView, hop, hmin]
  obtain ⟨suf, hsuf⟩ :=
    addCol_foldl_rows_eq (defaultColumns positionConfig)
      (appendTable (emptyCollection pstats) (rowOfMatch nm))
  have hrows : (addMissingColumns positionConfig
      (appendTable (emptyCollection pstats) (rowOfMatch nm))).rows =
      [rowOfMatch nm ++ suf] := by
    rw [addMissingColumns, hsuf]
    simp [appendTable, emptyCollection]
  refine ⟨by rw [hview],
    addMissingColumns positionConfig (appendTable (emptyCollection pstats) (rowOfMatch nm)),
    ?_, ?_, ?_⟩
  · rw [hview]
    exact loadData_after_save _ _ _ _ hname
  · rw [totalMatches, hrows]
    rfl
  · rw [totalMinutes, hrows]
    simp [lookup_append_left (rowOfMatch_lookup_minutes nm), valueNat]

theorem append_to_empty_totals_witness :
    ((NewMatch.mk "2024-03-01" "Rivals FC" 90 [("saves", 4)]).opponent ≠ "" ∧
     (NewMatch.mk "2024-03-01" "Rivals FC" 90 [("saves", 4)]).minutes ≠ 0 ∧
     ("Jane Doe" : String) ≠ "") ∧
    ((addMatchView (fun _ => none) "Jane Doe" (emptyCollection ["saves"])
        (NewMatch.mk "2024-03-01" "Rivals FC" 90 [("saves", 4)])).1 = none ∧
     ∃ t', loadData positionConfig
        (addMatchView (fun _ => none) "Jane Doe" (emptyCollection ["saves"])
          (NewMatch.mk "2024-03-01" "Rivals FC" 90 [("saves", 4)])).2.2 "Jane Doe"
        = some t' ∧
      totalMatches t' = 1 ∧ totalMinutes t' = 90) :=
  ⟨⟨by decide, by decide, by decide⟩,
   append_to_empty_totals (fun _ => none) "Jane Doe" ["saves"]
     (NewMatch.mk "2024-03-01" "Rivals FC" 90 [("saves", 4)])
     (by decide) (by decide) (by decide)⟩

/-! ### C10: widget bounds on accepted records -/

/-- C10: a record accepted by the add-match flow has minutes played between 1
and 120 (the widget caps at 120, validation rejects 0) and every statistic
value between 0 and 200 (the widget's range). -/
theorem addMatch_input_bounds (store : Store) (name : String) (data : Table)
    (pstats : List String) (d o : String) (rawMinutes : Nat) (raw : String → Nat)
    (hsucc : (addMatchView store name data (formRecord pstats d o rawMinutes raw)).1 = none) :
    1 ≤ (formRecord pstats d o rawMinutes raw).minutes ∧
    (formRecord pstats d o rawMinutes raw).minutes ≤ 120 ∧
    ∀ s v, (s, v) ∈ (formRecord pstats d o rawMinutes raw).stats →
      v ≤ 200 := by
  have hmin0 : (formRecord pstats d o rawMinutes raw).minutes ≠ 0 := by
    intro h0
    by_cases hop : (formRecord pstats d o rawMinutes raw).opponent = ""
    · simp [addMatchView, hop] at hsucc
    · simp [addMatchView, hop, h0] at hsucc
  refine ⟨Nat.one_le_iff_ne_zero.mpr hmin0, ?_, ?_⟩
  · show numberInput 0 120 rawMinutes ≤ 120
    simp [numberInput]
  · intro s v hmem
    simp only [formRecord, createStatInputs, List.mem_map] at hmem
    obtain ⟨x, -, hx⟩ := hmem
    have hv : v = numberInput 0 200 (raw x) := by
      have := congrArg Prod.snd hx
      simpa using this.symm
    rw [hv]
    simp [numberInput]

theorem addMatch_input_bounds_witness :
    (addMatchView (fun _ => none) "Jane Doe" (emptyCollection ["saves"])
      (formRecord ["saves"] "2024-03-01" "Rivals FC" 90 (fun _ => 4))).1 = none ∧
    (1 ≤ (formRecord ["saves"] "2024-03-01" "Rivals FC" 90 (fun _ => 4)).minutes ∧
     (formRecord ["saves"] "2024-03-01" "Rivals FC" 90 (fun _ => 4)).minutes ≤ 120 ∧
     ∀ s v, (s, v) ∈ (formRecord ["saves"] "2024-03-01" "Rivals FC" 90 (fun _ => 4)).stats →
       v ≤ 200) :=
  ⟨by decide,
   addMatch_input_bounds (fun _ => none) "Jane Doe" (emptyCollection ["saves"])
     ["saves"] "2024-03-01" "Rivals FC" 90 (fun _ => 4) (by decide)⟩

/-! ### C4: the recent-matches view -/

/-- C4 counterexample: on a table whose rows 0, 2 and 3 share one date,
`sort_values('date', ascending=False)` keeps the tied rows in original
insertion order — indices `[0, 2, 3, 1]`, earliest-inserted first — so the
claimed tie-break (most-recently-inserted first, which would give
`[3, 2, 0, 1]`) fails: the output is not ordered descending in insertion
index on equal dates. -/
theorem recent_tiebreak_claim_cex :
    (recent tieTable 4).map Prod.fst = [0, 2, 3, 1] ∧
    ¬ (recent tieTable 4).Pairwise (fun p q =>
        rowDate q.2 < rowDate p.2 ∨ (rowDate q.2 = rowDate p.2 ∧ q.1 < p.1)) := by
  decide

/-- C4 amended: `recent` is the `n`-prefix of a permutation of the indexed
rows that is sorted strictly: descending by date, ties between equal dates
broken by original insertion order, earliest-inserted first (pandas'
stable-sort regime); its length is `min n (total_matches)`. -/
theorem recent_spec_amended (t : Table) (n : Nat) :
    List.Perm (sortValuesDateDesc t) (indexedRows t) ∧
    recent t n = (sortValuesDateDesc t).take n ∧
    (recent t n).length = min n (totalMatches t) ∧
    (recent t n).Pairwise (fun p q =>
      rowDate q.2 < rowDate p.2 ∨ (rowDate p.2 = rowDate q.2 ∧ p.1 < q.1)) := by
  have hperm : List.Perm (sortValuesDateDesc t) (indexedRows t) :=
    List.perm_insertionSort dateIdxDescLe (indexedRows t)
  have hsorted : (sortValuesDateDesc t).Pairwise dateIdxDescLe :=
    List.sorted_insertionSort dateIdxDescLe (indexedRows t)
  have hnefst : (sortValuesDateDesc t).Pairwise
      (fun p q : Nat × Row => p.1 ≠ q.1) := by
    have h0 : (indexedRows t).Pairwise (fun p q : Nat × Row => p.1 ≠ q.1) := by
      have h1 := List.nodup_enum_map_fst t.rows
      rw [List.Nodup, List.pairwise_map] at h1
      exact h1
    exact (hperm.pairwise_iff (fun h => h.symm)).mpr h0
  have hstrict : (sortValuesDateDesc t).Pairwise (fun p q =>
      rowDate q.2 < rowDate p.2 ∨ (rowDate p.2 = rowDate q.2 ∧ p.1 < q.1)) := by
    refine (hsorted.and hnefst).imp ?_
    intro p q h
    rcases h.1 with hlt | ⟨heq, hle⟩
    · exact Or.inl hlt
    · exact Or.inr ⟨heq, Nat.lt_of_le_of_ne hle h.2⟩
  refine ⟨hperm, rfl, ?_, ?_⟩
  · rw [recent, List.length_take, hperm.length_eq]
    simp [indexedRows, totalMatches]
  · exact hstrict.sublist (List.take_sublist n _)

end RapidsStats
